import Mathlib

/-!
Shallow embedding of the core logic of `src/PuppyDashboard.js` (Diza-Dashboard).

Modelling conventions:
* A stored ISO-8601 timestamp string is represented by its parsed epoch value in
  milliseconds (`TimeVal.valid ms`); a string that `new Date(...)` fails to parse is
  `TimeVal.invalid`; a missing or non-string `time` field is `TimeVal.missing`.
* The Firestore collection is an association list from document keys to day documents.
  `updateDoc` on a missing document fails in Firestore and the failure is not caught by
  the source, so no write happens in that case.
* A calendar date is a `(year, month, day)` triple; `toDateString` equality is equality
  of triples, and `toISOString().split('T')[0]` is the zero-padded rendering `isoKey`.
  For valid dates the chronological order agrees with lexicographic order on triples.
* `prompt` results are `Option String` (`none` = cancelled); `window.confirm` is a `Bool`.
-/

inductive TimeVal where
  | missing : TimeVal
  | invalid : TimeVal
  | valid : Int → TimeVal
deriving DecidableEq, Repr

/-- `new Date(w.time || w).getTime()` for a walk entry: the parsed epoch milliseconds,
or `none` when the result is `NaN` (missing or unparsable time). -/
def jsGetTime : TimeVal → Option Int
  | TimeVal.valid ms => some ms
  | _ => none

structure WalkEntry where
  time : TimeVal
deriving DecidableEq, Repr

structure MealEntry where
  time : TimeVal
  weight : Option Int
deriving DecidableEq, Repr

structure SnackEntry where
  time : TimeVal
  snackType : String
  quantity : Option Int
deriving DecidableEq, Repr

structure DayLog where
  walks : List WalkEntry
  meals : List MealEntry
  snacks : List SnackEntry
deriving DecidableEq, Repr

def emptyDayLog : DayLog := ⟨[], [], []⟩

/-- The Firestore collection `puppyData`, as an association list keyed by document id. -/
def Store : Type := List (String × DayLog)

def Store.get : Store → String → Option DayLog
  | [], _ => none
  | (k, v) :: rest, k2 => if k = k2 then some v else Store.get rest k2

def Store.set : Store → String → DayLog → Store
  | [], k, v => [(k, v)]
  | (k1, v1) :: rest, k, v => if k1 = k then (k, v) :: rest else (k1, v1) :: Store.set rest k v

instance : DecidableEq Store := inferInstanceAs (DecidableEq (List (String × DayLog)))

/-- Calendar date as seen by the dashboard (`toDateString` identifies such a triple). -/
structure JDate where
  year : Nat
  month : Nat
  day : Nat
deriving DecidableEq, Repr

def digitChar (n : Nat) : Char := Char.ofNat (48 + n)

def charDigit (c : Char) : Option Nat :=
  if 48 ≤ c.toNat ∧ c.toNat ≤ 57 then some (c.toNat - 48) else none

/-- Zero-padded `YYYY-MM-DD`, i.e. `date.toISOString().split('T')[0]` for dates with
year ≤ 9999 (the embedding treats the date's own calendar fields as the UTC fields). -/
def isoKey (d : JDate) : String :=
  ⟨[digitChar (d.year / 1000 % 10), digitChar (d.year / 100 % 10),
    digitChar (d.year / 10 % 10), digitChar (d.year % 10), '-',
    digitChar (d.month / 10 % 10), digitChar (d.month % 10), '-',
    digitChar (d.day / 10 % 10), digitChar (d.day % 10)]⟩

def matchesDateKeyChars : List Char → Bool
  | [a, b, c, d, e, f, g, h, i, j] =>
      (charDigit a).isSome && (charDigit b).isSome && (charDigit c).isSome &&
      (charDigit d).isSome && (e = '-') && (charDigit f).isSome && (charDigit g).isSome &&
      (h = '-') && (charDigit i).isSome && (charDigit j).isSome
  | _ => false

/-- The regex test `docId.match(/^\d{4}-\d{2}-\d{2}$/)` from `loadHistoryDates`. -/
def matchesDateKey (s : String) : Bool :=
  matchesDateKeyChars s.data

def isLeapYear (y : Nat) : Bool := (y % 4 = 0 && y % 100 ≠ 0) || y % 400 = 0

def daysInMonth (y m : Nat) : Nat :=
  if m = 2 then (if isLeapYear y then 29 else 28)
  else if m = 4 ∨ m = 6 ∨ m = 9 ∨ m = 11 then 30
  else 31

def parseDateKeyChars : List Char → Option JDate
  | [a, b, c, d, e, f, g, h, i, j] =>
      match charDigit a, charDigit b, charDigit c, charDigit d,
            charDigit f, charDigit g, charDigit i, charDigit j with
      | some a1, some b1, some c1, some d1, some f1, some g1, some i1, some j1 =>
          if e = '-' ∧ h = '-' then
            let y := 1000 * a1 + 100 * b1 + 10 * c1 + d1
            let m := 10 * f1 + g1
            let dd := 10 * i1 + j1
            if 1 ≤ m ∧ m ≤ 12 ∧ 1 ≤ dd ∧ dd ≤ daysInMonth y m then
              some ⟨y, m, dd⟩
            else none
          else none
      | _, _, _, _, _, _, _, _ => none
  | _ => none

/-- `new Date(docId)` for a `YYYY-MM-DD` shaped string: the calendar date, or `none`
when the engine yields `Invalid Date` (month or day out of range, or not date-shaped). -/
def parseDateKey (s : String) : Option JDate :=
  parseDateKeyChars s.data

/-- The document key chosen by `getDocRefForDate`: `'main'` when the date is today
(`date.toDateString() === todayStr`), else the ISO `YYYY-MM-DD` key. -/
def dateKeyFor (today d : JDate) : String :=
  if d = today then "main" else isoKey d

structure ResolveResult where
  key : String
  store : Store
  created : Nat

/-- `getDocRefForDate(date)`: resolve the key; if the document does not exist and the
key is not `'main'`, create it with empty walks/meals/snacks. `created` counts the
`setDoc` creations performed by this call. -/
def getDocRefForDate (today d : JDate) (s : Store) : ResolveResult :=
  let k := dateKeyFor today d
  match s.get k with
  | some _ => ⟨k, s, 0⟩
  | none => if k = "main" then ⟨k, s, 0⟩ else ⟨k, s.set k emptyDayLog, 1⟩

/-- The comparator of `sortByTime`, transcribed bug and all:
`timeA = isNaN(ta) ? 0 : ta.getTime()` but
`timeB = isNaN(tb) ? 0 : ta.getTime()` — the second key reads operand `a`.
When `a` is unparsable and `b` parses, `timeA - timeB` is `0 - NaN = NaN`, which the
ECMAScript `SortCompare` step coerces to `+0`. -/
def cmpWalk (a b : WalkEntry) : Int :=
  let ta := jsGetTime a.time
  let tb := jsGetTime b.time
  let timeA : Int := ta.getD 0
  let timeB : Option Int := if tb.isNone then some 0 else ta
  match timeB with
  | some v => timeA - v
  | none => 0

/-- Stable insertion step: `a` is placed before the first element it does not have to
follow (`cmpWalk a y ≤ 0`). For a comparator that is consistent in the ECMAScript
sense this realises exactly the stable sorted order `Array.prototype.sort` guarantees. -/
def insertCmp (a : WalkEntry) : List WalkEntry → List WalkEntry
  | [] => [a]
  | y :: ys => if cmpWalk a y ≤ 0 then a :: y :: ys else y :: insertCmp a ys

/-- `sortByTime(arr)`: `arr.slice().sort(comparator)` as a stable sort by `cmpWalk`. -/
def sortByTime : List WalkEntry → List WalkEntry
  | [] => []
  | x :: xs => insertCmp x (sortByTime xs)

/-- Truthiness of `mainData.walks?.length || mainData.meals?.length || mainData.snacks?.length`. -/
def hasEntries (d : DayLog) : Bool :=
  !d.walks.isEmpty || !d.meals.isEmpty || !d.snacks.isEmpty

/-- `archivePreviousDay(previousDay)` restricted to its effect on the document store
(the trailing `loadHistoryDates(true)` touches only the catalog state). `prevKey` is
`previousDay.toISOString().split('T')[0]`. -/
def archivePreviousDay (prevKey : String) (s : Store) : Store :=
  match s.get "main" with
  | none => s
  | some mainData =>
      if hasEntries mainData ∧ s.get prevKey = none then
        (s.set prevKey mainData).set "main" emptyDayLog
      else s

/-- Chronological `a ≤ b` on calendar dates (lexicographic on the triple; for the valid
dates that reach the catalog this agrees with comparison of the underlying `Date`s). -/
def dleb (a b : JDate) : Bool :=
  a.year < b.year || (a.year == b.year &&
    (a.month < b.month || (a.month == b.month && a.day ≤ b.day)))

/-- Chronological `a < b` on calendar dates. -/
def dltb (a b : JDate) : Bool :=
  a.year < b.year || (a.year == b.year &&
    (a.month < b.month || (a.month == b.month && a.day < b.day)))

/-- Insert into a descending-sorted list of dates (newest first). -/
def insertDesc (a : JDate) : List JDate → List JDate
  | [] => [a]
  | y :: ys => if dleb y a then a :: y :: ys else y :: insertDesc a ys

/-- `.sort((a, b) => b - a)` on dates: sort descending (newest first). -/
def sortDesc : List JDate → List JDate
  | [] => []
  | x :: xs => insertDesc x (sortDesc xs)

structure HistoryState where
  catalog : Option (List JDate)
  lastVisible : Option String
  hasMore : Bool

/-- `loadHistoryDates(isInitialLoad)`. The Firestore query itself is external; its
outcome is the `queryResult` argument (`Except.error` = the `catch` branch, `Except.ok
docs` = the page of raw document ids, already in descending key order and of size at
most 15). `prev` / `prevLast` are the `availableDates` / `lastVisibleDate` states. -/
def loadHistoryDates (isInitialLoad : Bool) (prev : Option (List JDate))
    (prevLast : Option String) (queryResult : Except Unit (List String))
    (today yesterday : JDate) : HistoryState :=
  let base : List JDate := if !isInitialLoad then prev.getD [] else []
  match queryResult with
  | Except.ok docs =>
      let matched := docs.filter (fun k => matchesDateKey k)
      let parsed := matched.filterMap parseDateKey
      let catalog := sortDesc ((base ++ parsed ++ [today, yesterday]).dedup)
      ⟨some catalog, matched.getLast?, decide (docs.length ≥ 15)⟩
  | Except.error _ =>
      match prev with
      | none => ⟨some (sortDesc [today, yesterday]), prevLast, false⟩
      | some c => ⟨some c, prevLast, false⟩

/-- Leading-digit run value for `parseInt`, in the given radix. -/
def digitsVal (radix : Nat) : List Char → Option Nat → Option Nat
  | [], acc => acc
  | c :: cs, acc =>
      match charDigit c with
      | some d =>
          if d < radix then digitsVal radix cs (some ((acc.getD 0) * radix + d)) else acc
      | none =>
          if radix = 16 then
            let v := c.toNat
            if (65 ≤ v ∧ v ≤ 70) ∨ (97 ≤ v ∧ v ≤ 102) then
              digitsVal radix cs (some ((acc.getD 0) * 16 + v % 32 + 9))
            else acc
          else acc

/-- JavaScript `parseInt(s)`: skip leading whitespace, optional sign, optional `0x`
prefix switching to hexadecimal, then the longest run of digits; `none` = `NaN`. -/
def parseIntJS (s : String) : Option Int :=
  let cs := s.data.dropWhile (fun c => c = ' ' ∨ c = '\t' ∨ c = '\n' ∨ c = '\r')
  let signVal : List Char → Option Int
    | '0' :: 'x' :: rest => (digitsVal 16 rest none).map Int.ofNat
    | '0' :: 'X' :: rest => (digitsVal 16 rest none).map Int.ofNat
    | l => (digitsVal 10 l none).map Int.ofNat
  match cs with
  | '-' :: rest => (signVal rest).map Neg.neg
  | '+' :: rest => signVal rest
  | _ => signVal cs

/-- An `updateDoc` payload: the fields present in the update object. -/
structure UpdatePayload where
  walksF : Option (List WalkEntry)
  mealsF : Option (List MealEntry)
  snacksF : Option (List SnackEntry)

def applyPayload (p : UpdatePayload) (d : DayLog) : DayLog :=
  ⟨p.walksF.getD d.walks, p.mealsF.getD d.meals, p.snacksF.getD d.snacks⟩

/-- `handleAction(updateData)`: resolve the document for the selected date, then
`updateDoc`. `updateDoc` on a missing document rejects (the source does not catch
this), so the store is unchanged in that case; the `isNewDoc` catalog refresh only
touches catalog state. -/
def handleAction (today seld : JDate) (p : UpdatePayload) (s : Store) : Store :=
  let r := getDocRefForDate today seld s
  match r.store.get r.key with
  | some d => r.store.set r.key (applyPayload p d)
  | none => r.store

/-- `addWalk()`: append a walk stamped with the current time and write back the
`sortByTime`-processed walks array (only field `walks` is in the update). -/
def addWalk (today seld : JDate) (now : Int) (s : Store) : Store :=
  let r := getDocRefForDate today seld s
  let current := match r.store.get r.key with
    | some d => d.walks
    | none => []
  handleAction today seld ⟨some (sortByTime (current ++ [⟨TimeVal.valid now⟩])), none, none⟩ r.store

/-- `addCustomWalk()`: prompt for `HH:mm:ss`; cancelled or empty input is a silent
no-op. `customMs` stands for the epoch value of the locally constructed `Date`
(time-zone dependent, hence a parameter of the embedding). -/
def addCustomWalk (today seld : JDate) (timeInput : Option String) (customMs : Int)
    (s : Store) : Store :=
  match timeInput with
  | none => s
  | some t =>
      if t = "" then s
      else
        let r := getDocRefForDate today seld s
        let current := match r.store.get r.key with
          | some d => d.walks
          | none => []
        handleAction today seld
          ⟨some (sortByTime (current ++ [⟨TimeVal.valid customMs⟩])), none, none⟩ r.store

/-- `addMeal()`: validate the prompted weight (`null`, `NaN` or `≤ 0` alerts and
aborts), else append `{time: now, weight}` to `meals` (insertion order, no re-sort).
The second component records whether `alert` was shown. -/
def addMeal (today seld : JDate) (weightInput : Option String) (now : Int)
    (s : Store) : Store × Bool :=
  match weightInput with
  | none => (s, true)
  | some w =>
      match parseIntJS w with
      | none => (s, true)
      | some n =>
          if n ≤ 0 then (s, true)
          else
            let r := getDocRefForDate today seld s
            let current := match r.store.get r.key with
              | some d => d.meals
              | none => []
            (handleAction today seld
              ⟨none, some (current ++ [⟨TimeVal.valid now, some n⟩]), none⟩ r.store, false)

/-- `addSnack()`: a cancelled or empty type prompt returns silently (no alert); an
invalid quantity (`null`, empty, `NaN` or `≤ 0`) alerts and aborts; otherwise append
`{time: now, type, quantity}` to `snacks` in insertion order. -/
def addSnack (today seld : JDate) (typeInput qtyInput : Option String) (now : Int)
    (s : Store) : Store × Bool :=
  match typeInput with
  | none => (s, false)
  | some t =>
      if t = "" then (s, false)
      else
        match qtyInput with
        | none => (s, true)
        | some q =>
            if q = "" then (s, true)
            else
              match parseIntJS q with
              | none => (s, true)
              | some n =>
                  if n ≤ 0 then (s, true)
                  else
                    let r := getDocRefForDate today seld s
                    let current := match r.store.get r.key with
                      | some d => d.snacks
                      | none => []
                    (handleAction today seld
                      ⟨none, none, some (current ++ [⟨TimeVal.valid now, t, some n⟩])⟩ r.store,
                     false)

/-- `addCustomMeal()`: time prompt first (cancelled/empty: silent no-op), then the
same weight validation as `addMeal`; `customMs` is the locally constructed time. -/
def addCustomMeal (today seld : JDate) (timeInput weightInput : Option String)
    (customMs : Int) (s : Store) : Store × Bool :=
  match timeInput with
  | none => (s, false)
  | some t =>
      if t = "" then (s, false)
      else
        match weightInput with
        | none => (s, true)
        | some w =>
            match parseIntJS w with
            | none => (s, true)
            | some n =>
                if n ≤ 0 then (s, true)
                else
                  let r := getDocRefForDate today seld s
                  let current := match r.store.get r.key with
                    | some d => d.meals
                    | none => []
                  (handleAction today seld
                    ⟨none, some (current ++ [⟨TimeVal.valid customMs, some n⟩]), none⟩ r.store,
                   false)

/-- `addCustomSnack()`: time prompt, type prompt, quantity prompt, with the same
validation as `addSnack`; `customMs` is the locally constructed time. -/
def addCustomSnack (today seld : JDate) (timeInput typeInput qtyInput : Option String)
    (customMs : Int) (s : Store) : Store × Bool :=
  match timeInput with
  | none => (s, false)
  | some t0 =>
      if t0 = "" then (s, false)
      else
        match typeInput with
        | none => (s, false)
        | some t =>
            if t = "" then (s, false)
            else
              match qtyInput with
              | none => (s, true)
              | some q =>
                  if q = "" then (s, true)
                  else
                    match parseIntJS q with
                    | none => (s, true)
                    | some n =>
                        if n ≤ 0 then (s, true)
                        else
                          let r := getDocRefForDate today seld s
                          let current := match r.store.get r.key with
                            | some d => d.snacks
                            | none => []
                          (handleAction today seld
                            ⟨none, none,
                             some (current ++ [⟨TimeVal.valid customMs, t, some n⟩])⟩ r.store,
                           false)

/-- The shared body of `editEntry`: read the sequence, take `current[i]`, prompt
(cancelled/empty input: no write; an out-of-range `i` throws on `Object.keys(old)`
before any write), apply the transform (`null` result: no write), else write
`current` with position `i` replaced. Returns the new sequence, or `none` when
nothing is to be written. -/
def editSeq {α : Type} (current : List α) (i : Nat) (promptInput : Option String)
    (tf : α → String → Option α) : Option (List α) :=
  match current[i]? with
  | none => none
  | some old =>
      match promptInput with
      | none => none
      | some input =>
          if input = "" then none
          else
            match tf old input with
            | none => none
            | some upd => some (current.set i upd)

/-- `editEntry(i, 'walks', …)`: the written walks array passes through `sortByTime`. -/
def editEntryWalks (today seld : JDate) (i : Nat) (promptInput : Option String)
    (tf : WalkEntry → String → Option WalkEntry) (s : Store) : Store :=
  let r := getDocRefForDate today seld s
  match r.store.get r.key with
  | none => r.store
  | some d =>
      match editSeq d.walks i promptInput tf with
      | none => r.store
      | some l => handleAction today seld ⟨some (sortByTime l), none, none⟩ r.store

/-- `editEntry(i, 'meals', …)`: meals are written back without re-sorting. -/
def editEntryMeals (today seld : JDate) (i : Nat) (promptInput : Option String)
    (tf : MealEntry → String → Option MealEntry) (s : Store) : Store :=
  let r := getDocRefForDate today seld s
  match r.store.get r.key with
  | none => r.store
  | some d =>
      match editSeq d.meals i promptInput tf with
      | none => r.store
      | some l => handleAction today seld ⟨none, some l, none⟩ r.store

/-- `editEntry(i, 'snacks', …)`: snacks are written back without re-sorting. -/
def editEntrySnacks (today seld : JDate) (i : Nat) (promptInput : Option String)
    (tf : SnackEntry → String → Option SnackEntry) (s : Store) : Store :=
  let r := getDocRefForDate today seld s
  match r.store.get r.key with
  | none => r.store
  | some d =>
      match editSeq d.snacks i promptInput tf with
      | none => r.store
      | some l => handleAction today seld ⟨none, none, some l⟩ r.store

/-- The transform of `editMeal`: `parseInt` the input, alert and signal invalid when
`NaN` or `≤ 0`, else keep the entry with the new weight (time untouched). -/
def editMealTf (old : MealEntry) (input : String) : Option MealEntry :=
  match parseIntJS input with
  | none => none
  | some n => if n ≤ 0 then none else some { old with weight := some n }

def editMeal (today seld : JDate) (i : Nat) (promptInput : Option String)
    (s : Store) : Store :=
  editEntryMeals today seld i promptInput editMealTf s

inductive Kind where
  | walks
  | meals
  | snacks
deriving DecidableEq, Repr

/-- `deleteEntry(i, type)`: confirm first (declining aborts), then splice out index
`i` of the kind's sequence and write only that field back (no re-sort). -/
def deleteEntry (today seld : JDate) (kind : Kind) (i : Nat) (confirmed : Bool)
    (s : Store) : Store :=
  if !confirmed then s
  else
    let r := getDocRefForDate today seld s
    match r.store.get r.key with
    | none => r.store
    | some d =>
        let p : UpdatePayload := match kind with
          | Kind.walks => ⟨some (d.walks.eraseIdx i), none, none⟩
          | Kind.meals => ⟨none, some (d.meals.eraseIdx i), none⟩
          | Kind.snacks => ⟨none, none, some (d.snacks.eraseIdx i)⟩
        handleAction today seld p r.store

/-- `resetDay()`: confirm, then write all three sequences empty in one update. -/
def resetDay (today seld : JDate) (confirmed : Bool) (s : Store) : Store :=
  if !confirmed then s
  else handleAction today seld ⟨some [], some [], some []⟩ s

/-- Abstract stand-in for `toLocaleTimeString` on a valid instant. -/
def localeTime (ms : Int) : String := "t" ++ toString ms

/-- `formatTime(t)`: empty string when the time value is absent or not a string,
the error marker when `new Date(timeValue)` is invalid, else the locale rendering. -/
def formatTime (t : TimeVal) : String :=
  match t with
  | TimeVal.missing => ""
  | TimeVal.invalid => "Error Time"
  | TimeVal.valid ms => localeTime ms

/-- Truthiness of `m.weight` in `data.meals.filter(m => m.weight)`. -/
def mealKept (m : MealEntry) : Bool :=
  match m.weight with
  | some w => w ≠ 0
  | none => false

/-- Truthiness of `s.quantity` in `data.snacks.filter(s => s.quantity)`. -/
def snackKept (sn : SnackEntry) : Bool :=
  match sn.quantity with
  | some q => q ≠ 0
  | none => false

structure Rendered where
  walks : List WalkEntry
  meals : List MealEntry
  snacks : List SnackEntry
deriving DecidableEq, Repr

/-- `loadForDate(date)` as its effect on the store and the rendered lists: today reads
`'main'` (creating it empty when absent), another date reads its `YYYY-MM-DD`
document; walks pass through `sortByTime`, meals/snacks through the truthiness
filters. The stored document itself is never rewritten when present. -/
def loadForDate (today d : JDate) (s : Store) : Store × Rendered :=
  if d = today then
    match s.get "main" with
    | some doc =>
        (s, ⟨sortByTime doc.walks, doc.meals.filter mealKept, doc.snacks.filter snackKept⟩)
    | none => (s.set "main" emptyDayLog, ⟨[], [], []⟩)
  else
    match s.get (isoKey d) with
    | some doc =>
        (s, ⟨sortByTime doc.walks, doc.meals.filter mealKept, doc.snacks.filter snackKept⟩)
    | none => (s, ⟨[], [], []⟩)

/-- `isWalkDue()` over the rendered walks: false in history mode, true when no walks
exist or the last walk's time is invalid, else `(now - last) / 3600000 >= 3` (the
division is exact rational arithmetic; for millisecond integers this coincides with
the double-precision comparison of the source). -/
def isWalkDue (isHistoryMode : Bool) (walks : List WalkEntry) (currentTime : Int) : Bool :=
  if isHistoryMode then false
  else
    match walks.getLast? with
    | none => true
    | some w =>
        match jsGetTime w.time with
        | none => true
        | some last =>
            decide ((3 : ℚ) ≤ ((currentTime : ℚ) - (last : ℚ)) / (1000 * 60 * 60))

/-- Concrete store used to refute the universally-quantified form of the archival
claim: the historical document for `2024-01-01` already exists while `'main'`
still has a walk, so `archivePreviousDay` is a no-op and `'main'` stays non-empty. -/
def c4Store : Store :=
  [("main", ⟨[⟨TimeVal.valid 0⟩], [], []⟩), ("2024-01-01", emptyDayLog)]

/-! ## Helper lemmas -/

theorem Store.get_set_same (s : Store) (k : String) (v : DayLog) :
    (s.set k v).get k = some v := by
  induction s with
  | nil => simp [Store.set, Store.get]
  | cons hd tl ih =>
      obtain ⟨k1, v1⟩ := hd
      by_cases h : k1 = k
      · simp [Store.set, Store.get, h]
      · simp [Store.set, Store.get, h, ih]

theorem Store.get_set_ne (s : Store) (k k2 : String) (v : DayLog) (h : k ≠ k2) :
    (s.set k v).get k2 = s.get k2 := by
  induction s with
  | nil => simp [Store.set, Store.get, h]
  | cons hd tl ih =>
      obtain ⟨k1, v1⟩ := hd
      by_cases h1 : k1 = k
      · subst h1
        simp [Store.set, Store.get, h]
      · by_cases h2 : k1 = k2
        · subst h2
          simp [Store.set, Store.get, h1, Ne.symm h]
        · simp [Store.set, Store.get, h1, h2, ih]

theorem insertCmp_perm (a : WalkEntry) (l : List WalkEntry) :
    (insertCmp a l).Perm (a :: l) := by
  induction l with
  | nil => simp [insertCmp]
  | cons y ys ih =>
      by_cases h : cmpWalk a y ≤ 0
      · simp [insertCmp, h]
      · simp only [insertCmp, if_neg h]
        exact ((ih.cons y).trans (List.Perm.swap a y ys))

theorem sortByTime_perm (l : List WalkEntry) : (sortByTime l).Perm l := by
  induction l with
  | nil => simp [sortByTime]
  | cons x xs ih => exact (insertCmp_perm x (sortByTime xs)).trans (ih.cons x)

theorem insertDesc_perm (a : JDate) (l : List JDate) :
    (insertDesc a l).Perm (a :: l) := by
  induction l with
  | nil => simp [insertDesc]
  | cons y ys ih =>
      by_cases h : dleb y a = true
      · simp [insertDesc, h]
      · simp only [insertDesc, if_neg h]
        exact ((ih.cons y).trans (List.Perm.swap a y ys))

theorem sortDesc_perm (l : List JDate) : (sortDesc l).Perm l := by
  induction l with
  | nil => simp [sortDesc]
  | cons x xs ih => exact (insertDesc_perm x (sortDesc xs)).trans (ih.cons x)

theorem dleb_total (a b : JDate) : dleb a b = true ∨ dleb b a = true := by
  simp only [dleb, Bool.or_eq_true, Bool.and_eq_true, decide_eq_true_eq, beq_iff_eq]
  omega

theorem dleb_trans {a b c : JDate} (h1 : dleb a b = true) (h2 : dleb b c = true) :
    dleb a c = true := by
  simp only [dleb, Bool.or_eq_true, Bool.and_eq_true, decide_eq_true_eq, beq_iff_eq] at *
  omega

theorem dltb_of_dleb_ne {a b : JDate} (h1 : dleb a b = true) (h2 : a ≠ b) :
    dltb a b = true := by
  obtain ⟨y1, m1, d1⟩ := a
  obtain ⟨y2, m2, d2⟩ := b
  simp only [dleb, dltb, Bool.or_eq_true, Bool.and_eq_true, decide_eq_true_eq,
    beq_iff_eq, ne_eq, JDate.mk.injEq, not_and] at *
  omega

theorem dleb_of_dltb {a b : JDate} (h : dltb a b = true) : dleb a b = true := by
  simp only [dleb, dltb, Bool.or_eq_true, Bool.and_eq_true, decide_eq_true_eq,
    beq_iff_eq] at *
  omega

theorem insertDesc_sorted (a : JDate) (l : List JDate)
    (h : l.Pairwise (fun x y => dleb y x = true)) :
    (insertDesc a l).Pairwise (fun x y => dleb y x = true) := by
  induction l with
  | nil => simp [insertDesc]
  | cons y ys ih =>
      rw [List.pairwise_cons] at h
      by_cases hy : dleb y a = true
      · rw [insertDesc, if_pos hy, List.pairwise_cons]
        refine ⟨?_, List.pairwise_cons.mpr h⟩
        intro z hz
        rcases List.mem_cons.mp hz with hz1 | hz1
        · subst hz1; exact hy
        · exact dleb_trans (h.1 z hz1) hy
      · rw [insertDesc, if_neg hy, List.pairwise_cons]
        refine ⟨?_, ih h.2⟩
        intro z hz
        have hz2 := (insertDesc_perm a ys).mem_iff.mp hz
        rcases List.mem_cons.mp hz2 with hz3 | hz3
        · rw [hz3]
          rcases dleb_total a y with ht | ht
          · exact ht
          · exact absurd ht hy
        · exact h.1 z hz3

theorem sortDesc_sorted (l : List JDate) :
    (sortDesc l).Pairwise (fun x y => dleb y x = true) := by
  induction l with
  | nil => simp [sortDesc]
  | cons x xs ih => exact insertDesc_sorted x (sortDesc xs) ih

theorem sortDesc_strict (l : List JDate) (h : l.Nodup) :
    (sortDesc l).Pairwise (fun x y => dltb y x = true) := by
  have hnd : (sortDesc l).Nodup := ((sortDesc_perm l).nodup_iff).mpr h
  have hs := sortDesc_sorted l
  have := List.Pairwise.and hs hnd
  exact this.imp (fun h2 => dltb_of_dleb_ne h2.1 (Ne.symm h2.2))

theorem charDigit_digitChar (k : Nat) (h : k < 10) : charDigit (digitChar k) = some k := by
  interval_cases k <;> rfl

theorem daysInMonth_le (y m : Nat) : daysInMonth y m ≤ 31 := by
  simp only [daysInMonth]
  repeat' split
  all_goals omega

theorem parseDateKey_isoKey (y m dd : Nat) (hy : y ≤ 9999) (hm1 : 1 ≤ m)
    (hm2 : m ≤ 12) (hd1 : 1 ≤ dd) (hd2 : dd ≤ daysInMonth y m) :
    parseDateKey (isoKey ⟨y, m, dd⟩) = some ⟨y, m, dd⟩ := by
  have hdd : dd ≤ 31 := le_trans hd2 (daysInMonth_le y m)
  simp only [parseDateKey, isoKey, parseDateKeyChars]
  rw [charDigit_digitChar _ (Nat.mod_lt _ (by omega)),
      charDigit_digitChar _ (Nat.mod_lt _ (by omega)),
      charDigit_digitChar _ (Nat.mod_lt _ (by omega)),
      charDigit_digitChar _ (Nat.mod_lt _ (by omega)),
      charDigit_digitChar _ (Nat.mod_lt _ (by omega)),
      charDigit_digitChar _ (Nat.mod_lt _ (by omega)),
      charDigit_digitChar _ (Nat.mod_lt _ (by omega)),
      charDigit_digitChar _ (Nat.mod_lt _ (by omega))]
  have ey : 1000 * (y / 1000 % 10) + 100 * (y / 100 % 10) + 10 * (y / 10 % 10) + y % 10 = y := by
    omega
  have em : 10 * (m / 10 % 10) + m % 10 = m := by omega
  have ed : 10 * (dd / 10 % 10) + dd % 10 = dd := by omega
  simp only [ey, em, ed]
  rw [if_pos (by simp), if_pos ⟨hm1, hm2, hd1, hd2⟩]

theorem getDocRefForDate_key (today d : JDate) (s : Store) :
    (getDocRefForDate today d s).key = dateKeyFor today d := by
  simp only [getDocRefForDate]
  cases Store.get s (dateKeyFor today d) with
  | some v => rfl
  | none => by_cases h : dateKeyFor today d = "main" <;> simp [h]

theorem getDocRefForDate_created_le (today d : JDate) (s : Store) :
    (getDocRefForDate today d s).created ≤ 1 := by
  simp only [getDocRefForDate]
  cases Store.get s (dateKeyFor today d) with
  | some v => exact Nat.zero_le 1
  | none =>
      by_cases h : dateKeyFor today d = "main" <;> simp [h]

theorem getDocRefForDate_of_get (today d : JDate) (s : Store) (v : DayLog)
    (h : s.get (dateKeyFor today d) = some v) :
    getDocRefForDate today d s = ⟨dateKeyFor today d, s, 0⟩ := by
  simp only [getDocRefForDate, h]

theorem getDocRefForDate_idem (today d : JDate) (s : Store) :
    getDocRefForDate today d ((getDocRefForDate today d s).store) =
      ⟨dateKeyFor today d, (getDocRefForDate today d s).store, 0⟩ := by
  simp only [getDocRefForDate]
  cases h : Store.get s (dateKeyFor today d) with
  | some v => simp [h]
  | none =>
      by_cases hm : dateKeyFor today d = "main"
      · simp only [h, hm, if_pos, if_true, reduceIte]
        cases Store.get s "main" <;> rfl
      · simp [h, hm, Store.get_set_same]

theorem handleAction_of_get (today seld : JDate) (p : UpdatePayload) (s : Store)
    (d : DayLog) (h : s.get (dateKeyFor today seld) = some d) :
    handleAction today seld p s = s.set (dateKeyFor today seld) (applyPayload p d) := by
  simp only [handleAction, getDocRefForDate_of_get today seld s d h, h]

theorem addWalk_of_get (today seld : JDate) (now : Int) (s : Store) (d : DayLog)
    (hget : s.get (dateKeyFor today seld) = some d) :
    addWalk today seld now s =
      s.set (dateKeyFor today seld)
        ⟨sortByTime (d.walks ++ [⟨TimeVal.valid now⟩]), d.meals, d.snacks⟩ := by
  simp only [addWalk, getDocRefForDate_of_get today seld s d hget, hget,
    handleAction_of_get today seld _ s d hget]
  rfl

theorem addCustomWalk_of_get (today seld : JDate) (t : String) (ht : t ≠ "")
    (customMs : Int) (s : Store) (d : DayLog)
    (hget : s.get (dateKeyFor today seld) = some d) :
    addCustomWalk today seld (some t) customMs s =
      s.set (dateKeyFor today seld)
        ⟨sortByTime (d.walks ++ [⟨TimeVal.valid customMs⟩]), d.meals, d.snacks⟩ := by
  simp only [addCustomWalk, if_neg ht, getDocRefForDate_of_get today seld s d hget, hget,
    handleAction_of_get today seld _ s d hget]
  rfl

theorem addMeal_valid (today seld : JDate) (w : String) (now n : Int) (s : Store)
    (d : DayLog) (hget : s.get (dateKeyFor today seld) = some d)
    (hp : parseIntJS w = some n) (hn : 0 < n) :
    addMeal today seld (some w) now s =
      (s.set (dateKeyFor today seld)
        ⟨d.walks, d.meals ++ [⟨TimeVal.valid now, some n⟩], d.snacks⟩, false) := by
  simp only [addMeal, hp]
  rw [if_neg (by omega)]
  simp only [getDocRefForDate_of_get today seld s d hget, hget,
    handleAction_of_get today seld _ s d hget]
  rfl

theorem addCustomMeal_valid (today seld : JDate) (t w : String) (ht : t ≠ "")
    (customMs n : Int) (s : Store) (d : DayLog)
    (hget : s.get (dateKeyFor today seld) = some d)
    (hp : parseIntJS w = some n) (hn : 0 < n) :
    addCustomMeal today seld (some t) (some w) customMs s =
      (s.set (dateKeyFor today seld)
        ⟨d.walks, d.meals ++ [⟨TimeVal.valid customMs, some n⟩], d.snacks⟩, false) := by
  simp only [addCustomMeal, if_neg ht, hp]
  rw [if_neg (by omega)]
  simp only [getDocRefForDate_of_get today seld s d hget, hget,
    handleAction_of_get today seld _ s d hget]
  rfl

theorem addSnack_valid (today seld : JDate) (t q : String) (ht : t ≠ "") (hq : q ≠ "")
    (now n : Int) (s : Store) (d : DayLog)
    (hget : s.get (dateKeyFor today seld) = some d)
    (hp : parseIntJS q = some n) (hn : 0 < n) :
    addSnack today seld (some t) (some q) now s =
      (s.set (dateKeyFor today seld)
        ⟨d.walks, d.meals, d.snacks ++ [⟨TimeVal.valid now, t, some n⟩]⟩, false) := by
  simp only [addSnack, if_neg ht, if_neg hq, hp]
  rw [if_neg (by omega)]
  simp only [getDocRefForDate_of_get today seld s d hget, hget,
    handleAction_of_get today seld _ s d hget]
  rfl

theorem addCustomSnack_valid (today seld : JDate) (t0 t q : String) (ht0 : t0 ≠ "")
    (ht : t ≠ "") (hq : q ≠ "") (customMs n : Int) (s : Store) (d : DayLog)
    (hget : s.get (dateKeyFor today seld) = some d)
    (hp : parseIntJS q = some n) (hn : 0 < n) :
    addCustomSnack today seld (some t0) (some t) (some q) customMs s =
      (s.set (dateKeyFor today seld)
        ⟨d.walks, d.meals, d.snacks ++ [⟨TimeVal.valid customMs, t, some n⟩]⟩, false) := by
  simp only [addCustomSnack, if_neg ht0, if_neg ht, if_neg hq, hp]
  rw [if_neg (by omega)]
  simp only [getDocRefForDate_of_get today seld s d hget, hget,
    handleAction_of_get today seld _ s d hget]
  rfl

theorem editEntryWalks_of_get (today seld : JDate) (i : Nat) (inp : Option String)
    (tf : WalkEntry → String → Option WalkEntry) (s : Store) (d : DayLog)
    (hget : s.get (dateKeyFor today seld) = some d) (l : List WalkEntry)
    (he : editSeq d.walks i inp tf = some l) :
    editEntryWalks today seld i inp tf s =
      s.set (dateKeyFor today seld) ⟨sortByTime l, d.meals, d.snacks⟩ := by
  simp only [editEntryWalks, getDocRefForDate_of_get today seld s d hget, hget, he,
    handleAction_of_get today seld _ s d hget]
  rfl

theorem editEntryWalks_invalid (today seld : JDate) (i : Nat) (inp : Option String)
    (tf : WalkEntry → String → Option WalkEntry) (s : Store) (d : DayLog)
    (hget : s.get (dateKeyFor today seld) = some d)
    (he : editSeq d.walks i inp tf = none) :
    editEntryWalks today seld i inp tf s = s := by
  simp only [editEntryWalks, getDocRefForDate_of_get today seld s d hget, hget, he]

theorem editEntryMeals_of_get (today seld : JDate) (i : Nat) (inp : Option String)
    (tf : MealEntry → String → Option MealEntry) (s : Store) (d : DayLog)
    (hget : s.get (dateKeyFor today seld) = some d) (l : List MealEntry)
    (he : editSeq d.meals i inp tf = some l) :
    editEntryMeals today seld i inp tf s =
      s.set (dateKeyFor today seld) ⟨d.walks, l, d.snacks⟩ := by
  simp only [editEntryMeals, getDocRefForDate_of_get today seld s d hget, hget, he,
    handleAction_of_get today seld _ s d hget]
  rfl

theorem editEntryMeals_invalid (today seld : JDate) (i : Nat) (inp : Option String)
    (tf : MealEntry → String → Option MealEntry) (s : Store) (d : DayLog)
    (hget : s.get (dateKeyFor today seld) = some d)
    (he : editSeq d.meals i inp tf = none) :
    editEntryMeals today seld i inp tf s = s := by
  simp only [editEntryMeals, getDocRefForDate_of_get today seld s d hget, hget, he]

theorem editEntrySnacks_of_get (today seld : JDate) (i : Nat) (inp : Option String)
    (tf : SnackEntry → String → Option SnackEntry) (s : Store) (d : DayLog)
    (hget : s.get (dateKeyFor today seld) = some d) (l : List SnackEntry)
    (he : editSeq d.snacks i inp tf = some l) :
    editEntrySnacks today seld i inp tf s =
      s.set (dateKeyFor today seld) ⟨d.walks, d.meals, l⟩ := by
  simp only [editEntrySnacks, getDocRefForDate_of_get today seld s d hget, hget, he,
    handleAction_of_get today seld _ s d hget]
  rfl

theorem editEntrySnacks_invalid (today seld : JDate) (i : Nat) (inp : Option String)
    (tf : SnackEntry → String → Option SnackEntry) (s : Store) (d : DayLog)
    (hget : s.get (dateKeyFor today seld) = some d)
    (he : editSeq d.snacks i inp tf = none) :
    editEntrySnacks today seld i inp tf s = s := by
  simp only [editEntrySnacks, getDocRefForDate_of_get today seld s d hget, hget, he]

theorem deleteEntry_walks_of_get (today seld : JDate) (i : Nat) (s : Store) (d : DayLog)
    (hget : s.get (dateKeyFor today seld) = some d) :
    deleteEntry today seld Kind.walks i true s =
      s.set (dateKeyFor today seld) ⟨d.walks.eraseIdx i, d.meals, d.snacks⟩ := by
  simp only [deleteEntry, Bool.not_true, Bool.false_eq_true, if_false,
    getDocRefForDate_of_get today seld s d hget, hget,
    handleAction_of_get today seld _ s d hget]
  rfl

theorem deleteEntry_meals_of_get (today seld : JDate) (i : Nat) (s : Store) (d : DayLog)
    (hget : s.get (dateKeyFor today seld) = some d) :
    deleteEntry today seld Kind.meals i true s =
      s.set (dateKeyFor today seld) ⟨d.walks, d.meals.eraseIdx i, d.snacks⟩ := by
  simp only [deleteEntry, Bool.not_true, Bool.false_eq_true, if_false,
    getDocRefForDate_of_get today seld s d hget, hget,
    handleAction_of_get today seld _ s d hget]
  rfl

theorem deleteEntry_snacks_of_get (today seld : JDate) (i : Nat) (s : Store) (d : DayLog)
    (hget : s.get (dateKeyFor today seld) = some d) :
    deleteEntry today seld Kind.snacks i true s =
      s.set (dateKeyFor today seld) ⟨d.walks, d.meals, d.snacks.eraseIdx i⟩ := by
  simp only [deleteEntry, Bool.not_true, Bool.false_eq_true, if_false,
    getDocRefForDate_of_get today seld s d hget, hget,
    handleAction_of_get today seld _ s d hget]
  rfl

theorem resetDay_of_get (today seld : JDate) (s : Store) (d : DayLog)
    (hget : s.get (dateKeyFor today seld) = some d) :
    resetDay today seld true s = s.set (dateKeyFor today seld) ⟨[], [], []⟩ := by
  simp only [resetDay, Bool.not_true, Bool.false_eq_true, if_false,
    handleAction_of_get today seld _ s d hget]
  rfl

/-! ## Claims -/

/-- C1: the spec's sort invariant (walks read back ascending by parsed time) is the
intended behavior, but the code violates it: the comparator's second key is computed
from the first operand (`timeB = isNaN(tb) ? 0 : ta.getTime()`), so it returns `0`
for every pair of parsable times and `sortByTime` leaves `[t=1000ms, t=0ms]` in
place; two `addWalk` calls at times `1000` then `0` store and render the walks in
descending order. -/
theorem c1_sortByTime_code_bug :
    sortByTime [⟨TimeVal.valid 1000⟩, ⟨TimeVal.valid 0⟩] =
      [⟨TimeVal.valid 1000⟩, ⟨TimeVal.valid 0⟩] ∧
    ¬ List.Pairwise
        (fun a b => ((jsGetTime a.time).getD 0) ≤ ((jsGetTime b.time).getD 0))
        (sortByTime [⟨TimeVal.valid 1000⟩, ⟨TimeVal.valid 0⟩]) ∧
    Store.get
        (addWalk ⟨2024, 1, 2⟩ ⟨2024, 1, 2⟩ 0
          (addWalk ⟨2024, 1, 2⟩ ⟨2024, 1, 2⟩ 1000 [("main", emptyDayLog)])) "main" =
      some ⟨[⟨TimeVal.valid 1000⟩, ⟨TimeVal.valid 0⟩], [], []⟩ ∧
    (loadForDate ⟨2024, 1, 2⟩ ⟨2024, 1, 2⟩
        (addWalk ⟨2024, 1, 2⟩ ⟨2024, 1, 2⟩ 0
          (addWalk ⟨2024, 1, 2⟩ ⟨2024, 1, 2⟩ 1000 [("main", emptyDayLog)]))).2.walks =
      [⟨TimeVal.valid 1000⟩, ⟨TimeVal.valid 0⟩] := by
  refine ⟨by decide, by decide, by decide, by decide⟩

/-- C2: `getDocRefForDate` maps today to the fixed `'main'` key and any other date to
its zero-padded `YYYY-MM-DD` key (the key round-trips through the `YYYY-MM-DD`
parser), performs at most one creation per call, and a second call for the same date
finds the document already present: it changes nothing and creates nothing. -/
theorem c2_getDocRefForDate_resolution (today d : JDate) (s : Store) :
    (getDocRefForDate today today s).key = "main" ∧
    (d ≠ today → (getDocRefForDate today d s).key = isoKey d) ∧
    (d.year ≤ 9999 → 1 ≤ d.month → d.month ≤ 12 → 1 ≤ d.day →
      d.day ≤ daysInMonth d.year d.month →
      parseDateKey ((getDocRefForDate today d s).key) = some d ∨
        (getDocRefForDate today d s).key = "main") ∧
    (getDocRefForDate today d s).created ≤ 1 ∧
    getDocRefForDate today d ((getDocRefForDate today d s).store) =
      ⟨(getDocRefForDate today d s).key, (getDocRefForDate today d s).store, 0⟩ := by
  refine ⟨?_, ?_, ?_, getDocRefForDate_created_le today d s, ?_⟩
  · rw [getDocRefForDate_key]
    simp [dateKeyFor]
  · intro h
    rw [getDocRefForDate_key]
    simp [dateKeyFor, h]
  · intro h1 h2 h3 h4 h5
    rw [getDocRefForDate_key]
    by_cases h : d = today
    · right
      simp [dateKeyFor, h]
    · left
      simp only [dateKeyFor, if_neg h]
      obtain ⟨y, m, dd⟩ := d
      exact parseDateKey_isoKey y m dd h1 h2 h3 h4 h5
  · rw [getDocRefForDate_idem, getDocRefForDate_key]

/-- C3: `isWalkDue()` is false in history mode regardless of elapsed time, true when
no walks exist, and otherwise (for a last walk with a valid timestamp) true exactly
when at least three hours have elapsed between the last walk time and the clock. -/
theorem c3_isWalkDue_spec (walks : List WalkEntry) (now last : Int) (w : WalkEntry) :
    isWalkDue true walks now = false ∧
    isWalkDue false [] now = true ∧
    (walks.getLast? = some w → w.time = TimeVal.valid last →
      (isWalkDue false walks now = true ↔ 3 * 60 * 60 * 1000 ≤ now - last)) := by
  refine ⟨rfl, rfl, ?_⟩
  intro h1 h2
  simp only [isWalkDue, h1, h2, jsGetTime, Bool.false_eq_true, if_false, decide_eq_true_eq]
  rw [le_div_iff₀ (by norm_num : (0 : ℚ) < 1000 * 60 * 60)]
  constructor
  · intro h
    have : (3 * (1000 * 60 * 60) : ℚ) ≤ ((now : ℚ) - (last : ℚ)) := h
    exact_mod_cast this
  · intro h
    have : ((3 * 60 * 60 * 1000 : Int) : ℚ) ≤ ((now - last : Int) : ℚ) := by exact_mod_cast h
    push_cast at this
    linarith

/-- Witness for C3 at a concrete input: one walk at epoch `0`, clock at exactly three
hours, not in history mode. -/
theorem c3_isWalkDue_witness :
    isWalkDue true [⟨TimeVal.valid 0⟩] 10800000 = false ∧
    isWalkDue false [] 10800000 = true ∧
    (isWalkDue false [⟨TimeVal.valid 0⟩] 10800000 = true ↔
      3 * 60 * 60 * 1000 ≤ (10800000 : Int) - 0) := by
  obtain ⟨h1, h2, h3⟩ :=
    c3_isWalkDue_spec [⟨TimeVal.valid 0⟩] 10800000 0 ⟨TimeVal.valid 0⟩
  exact ⟨h1, h2, h3 rfl rfl⟩

/-- Witness for C2 at a concrete input: today `2024-01-02`, resolving `2024-01-01`
against the empty store. -/
theorem c2_getDocRefForDate_witness :
    (getDocRefForDate ⟨2024, 1, 2⟩ ⟨2024, 1, 2⟩ []).key = "main" ∧
    (getDocRefForDate ⟨2024, 1, 2⟩ ⟨2024, 1, 1⟩ []).key = isoKey ⟨2024, 1, 1⟩ ∧
    (parseDateKey ((getDocRefForDate ⟨2024, 1, 2⟩ ⟨2024, 1, 1⟩ []).key) =
        some ⟨2024, 1, 1⟩ ∨
      (getDocRefForDate ⟨2024, 1, 2⟩ ⟨2024, 1, 1⟩ []).key = "main") ∧
    (getDocRefForDate ⟨2024, 1, 2⟩ ⟨2024, 1, 1⟩ []).created ≤ 1 ∧
    getDocRefForDate ⟨2024, 1, 2⟩ ⟨2024, 1, 1⟩
        ((getDocRefForDate ⟨2024, 1, 2⟩ ⟨2024, 1, 1⟩ []).store) =
      ⟨(getDocRefForDate ⟨2024, 1, 2⟩ ⟨2024, 1, 1⟩ []).key,
       (getDocRefForDate ⟨2024, 1, 2⟩ ⟨2024, 1, 1⟩ []).store, 0⟩ := by
  obtain ⟨h1, h2, h3, h4, h5⟩ :=
    c2_getDocRefForDate_resolution ⟨2024, 1, 2⟩ ⟨2024, 1, 1⟩ []
  exact ⟨h1, h2 (by decide),
    h3 (by decide) (by decide) (by decide) (by decide) (by decide), h4, h5⟩

/-- C4 counterexample: when the historical document for the ended date already exists
while `'main'` still holds a walk, archival (run once or twice) is a no-op and
`'main'` is left non-empty — refuting the claim's "leaves the `'main'` document
empty in both cases" for arbitrary starting states. -/
theorem c4_archival_counterexample :
    archivePreviousDay "2024-01-01" c4Store = c4Store ∧
    archivePreviousDay "2024-01-01" (archivePreviousDay "2024-01-01" c4Store) = c4Store ∧
    Store.get (archivePreviousDay "2024-01-01" c4Store) "main" ≠ some emptyDayLog := by
  refine ⟨by decide, by decide, by decide⟩

/-- C4 (amended): archival is idempotent for every starting state; when `'main'` has
entries and no document for the ended date exists, one run copies `'main'` verbatim
to the dated document and empties `'main'` (and so does a second run, by
idempotence); when the dated document already exists, or `'main'` is empty or
absent, archival changes nothing (in which case `'main'` keeps whatever it held). -/
theorem c4_archive_idempotent (prevKey : String) (s : Store) (mainData : DayLog) :
    archivePreviousDay prevKey (archivePreviousDay prevKey s) =
      archivePreviousDay prevKey s ∧
    (s.get "main" = some mainData → hasEntries mainData = true → s.get prevKey = none →
      prevKey ≠ "main" →
      (archivePreviousDay prevKey s).get prevKey = some mainData ∧
      (archivePreviousDay prevKey s).get "main" = some emptyDayLog) ∧
    (s.get "main" = some mainData →
      (hasEntries mainData = false ∨ s.get prevKey ≠ none) →
      archivePreviousDay prevKey s = s) ∧
    (s.get "main" = none → archivePreviousDay prevKey s = s) := by
  refine ⟨?_, ?_, ?_, ?_⟩
  · cases hm : s.get "main" with
    | none =>
        have h0 : archivePreviousDay prevKey s = s := by
          simp [archivePreviousDay, hm]
        rw [h0, h0]
    | some md =>
        by_cases hc : hasEntries md = true ∧ s.get prevKey = none
        · have h1 : archivePreviousDay prevKey s =
              (s.set prevKey md).set "main" emptyDayLog := by
            simp [archivePreviousDay, hm, hc]
          rw [h1]
          simp [archivePreviousDay, Store.get_set_same, hasEntries, emptyDayLog]
        · have h1 : archivePreviousDay prevKey s = s := by
            simp only [archivePreviousDay, hm]
            rw [if_neg hc]
          rw [h1, h1]
  · intro h1 h2 h3 h4
    have ha : archivePreviousDay prevKey s =
        (s.set prevKey mainData).set "main" emptyDayLog := by
      simp [archivePreviousDay, h1, h2, h3]
    rw [ha]
    constructor
    · rw [Store.get_set_ne _ _ _ _ (Ne.symm h4), Store.get_set_same]
    · rw [Store.get_set_same]
  · intro h1 h2
    simp only [archivePreviousDay, h1]
    rw [if_neg]
    rintro ⟨hc1, hc2⟩
    rcases h2 with h2 | h2
    · rw [h2] at hc1
      exact absurd hc1 (by simp)
    · exact h2 hc2
  · intro h1
    simp [archivePreviousDay, h1]

/-- Witness for C4 at a concrete input: `'main'` holds one walk and no document for
`2023-12-31` exists; archival fires, copies the data and empties `'main'`. -/
theorem c4_archive_idempotent_witness :
    archivePreviousDay "2023-12-31"
        (archivePreviousDay "2023-12-31" [("main", ⟨[⟨TimeVal.valid 0⟩], [], []⟩)]) =
      archivePreviousDay "2023-12-31" [("main", ⟨[⟨TimeVal.valid 0⟩], [], []⟩)] ∧
    (archivePreviousDay "2023-12-31"
        [("main", ⟨[⟨TimeVal.valid 0⟩], [], []⟩)]).get "2023-12-31" =
      some ⟨[⟨TimeVal.valid 0⟩], [], []⟩ ∧
    (archivePreviousDay "2023-12-31"
        [("main", ⟨[⟨TimeVal.valid 0⟩], [], []⟩)]).get "main" = some emptyDayLog := by
  obtain ⟨h1, h2, h3, h4⟩ :=
    c4_archive_idempotent "2023-12-31" [("main", ⟨[⟨TimeVal.valid 0⟩], [], []⟩)]
      ⟨[⟨TimeVal.valid 0⟩], [], []⟩
  obtain ⟨h2a, h2b⟩ := h2 (by decide) (by decide) (by decide) (by decide)
  exact ⟨h1, h2a, h2b⟩

/-- C5: after any page load that succeeds (initial or cursor-continued), the catalog
is duplicate-free and strictly descending by date; today and yesterday are always
members of it; every member either survives from the previous catalog, is today or
yesterday, or is the parse of a returned key matching the `YYYY-MM-DD` pattern — in
particular the `'main'` key (which fails the pattern) never enters the catalog. -/
theorem c5_history_catalog_invariants (isInitialLoad : Bool) (prev : Option (List JDate))
    (prevLast : Option String) (docs : List String) (today yesterday : JDate)
    (catalog : List JDate)
    (hc : (loadHistoryDates isInitialLoad prev prevLast (Except.ok docs)
        today yesterday).catalog = some catalog) :
    catalog.Nodup ∧
    catalog.Pairwise (fun a b => dltb b a = true) ∧
    today ∈ catalog ∧ yesterday ∈ catalog ∧
    (∀ x ∈ catalog,
      (isInitialLoad = false ∧ x ∈ prev.getD []) ∨ x = today ∨ x = yesterday ∨
      ∃ k ∈ docs, matchesDateKey k = true ∧ parseDateKey k = some x) ∧
    matchesDateKey "main" = false := by
  simp only [loadHistoryDates] at hc
  set base : List JDate := if !isInitialLoad then prev.getD [] else [] with hbase
  set pool : List JDate :=
    (base ++ (docs.filter (fun k => matchesDateKey k)).filterMap parseDateKey ++
      [today, yesterday]).dedup with hpool
  have hcat : catalog = sortDesc pool := by
    injection hc with hc2
    exact hc2.symm
  have hmem : ∀ x, x ∈ catalog ↔ x ∈ pool := by
    intro x
    rw [hcat]
    exact (sortDesc_perm pool).mem_iff
  have hnd : catalog.Nodup := by
    rw [hcat]
    exact ((sortDesc_perm pool).nodup_iff).mpr (List.nodup_dedup _)
  refine ⟨hnd, ?_, ?_, ?_, ?_, by decide⟩
  · rw [hcat]
    exact sortDesc_strict pool (List.nodup_dedup _)
  · rw [hmem, hpool, List.mem_dedup]
    simp
  · rw [hmem, hpool, List.mem_dedup]
    simp
  · intro x hx
    rw [hmem, hpool, List.mem_dedup] at hx
    simp only [List.mem_append, List.mem_filterMap, List.mem_filter,
      List.mem_cons, List.mem_singleton, List.not_mem_nil] at hx
    rcases hx with (hx | ⟨k, ⟨hk1, hk2⟩, hk3⟩) | (hx | hx)
    · rw [hbase] at hx
      cases isInitialLoad with
      | false => exact Or.inl ⟨rfl, by simpa using hx⟩
      | true => simp at hx
    · exact Or.inr (Or.inr (Or.inr ⟨k, hk1, hk2, hk3⟩))
    · exact Or.inr (Or.inl hx)
    · exact Or.inr (Or.inr (Or.inl (by simpa using hx)))

/-- Witness for C5: initial load returning the keys `['main', '2024-03-07']` with
today `2024-03-09`; the resulting catalog is `[03-09, 03-08, 03-07]`. -/
theorem c5_history_catalog_witness :
    ([⟨2024, 3, 9⟩, ⟨2024, 3, 8⟩, ⟨2024, 3, 7⟩] : List JDate).Nodup ∧
    ([⟨2024, 3, 9⟩, ⟨2024, 3, 8⟩, ⟨2024, 3, 7⟩] : List JDate).Pairwise
      (fun a b => dltb b a = true) ∧
    (⟨2024, 3, 9⟩ : JDate) ∈ ([⟨2024, 3, 9⟩, ⟨2024, 3, 8⟩, ⟨2024, 3, 7⟩] : List JDate) ∧
    (⟨2024, 3, 8⟩ : JDate) ∈ ([⟨2024, 3, 9⟩, ⟨2024, 3, 8⟩, ⟨2024, 3, 7⟩] : List JDate) ∧
    (∀ x ∈ ([⟨2024, 3, 9⟩, ⟨2024, 3, 8⟩, ⟨2024, 3, 7⟩] : List JDate),
      (true = false ∧ x ∈ (none : Option (List JDate)).getD []) ∨
      x = ⟨2024, 3, 9⟩ ∨ x = ⟨2024, 3, 8⟩ ∨
      ∃ k ∈ ["main", "2024-03-07"], matchesDateKey k = true ∧ parseDateKey k = some x) ∧
    matchesDateKey "main" = false := by
  exact c5_history_catalog_invariants true none none ["main", "2024-03-07"]
    ⟨2024, 3, 9⟩ ⟨2024, 3, 8⟩ [⟨2024, 3, 9⟩, ⟨2024, 3, 8⟩, ⟨2024, 3, 7⟩] (by decide)

/-- C6: on a failed history query the catalog falls back to exactly
`[today, yesterday]` when no catalog exists yet, is left completely untouched (and
the cursor with it) when one does, and the "has more" flag drops to `false` in both
cases; on success "has more" is `true` iff the page held at least 15 raw results. -/
theorem c6_history_failure_fallback (isInitialLoad : Bool) (prev : Option (List JDate))
    (prevLast : Option String) (docs : List String) (today yesterday : JDate)
    (c : List JDate) :
    (dltb yesterday today = true →
      loadHistoryDates isInitialLoad none prevLast (Except.error ()) today yesterday =
        ⟨some [today, yesterday], prevLast, false⟩) ∧
    loadHistoryDates isInitialLoad (some c) prevLast (Except.error ()) today yesterday =
      ⟨some c, prevLast, false⟩ ∧
    ((loadHistoryDates isInitialLoad prev prevLast (Except.ok docs)
        today yesterday).hasMore = true ↔ 15 ≤ docs.length) := by
  refine ⟨?_, rfl, ?_⟩
  · intro h
    simp [loadHistoryDates, sortDesc, insertDesc, dleb_of_dltb h]
  · simp [loadHistoryDates, decide_eq_true_eq, ge_iff_le]

/-- Witness for C6: today `2024-03-09`, yesterday `2024-03-08`, no existing catalog,
a failing query, and (for the success clause) a 1-element page. -/
theorem c6_history_failure_witness :
    loadHistoryDates true none none (Except.error ()) ⟨2024, 3, 9⟩ ⟨2024, 3, 8⟩ =
      ⟨some [⟨2024, 3, 9⟩, ⟨2024, 3, 8⟩], none, false⟩ ∧
    loadHistoryDates false (some [⟨2024, 3, 7⟩]) (some "2024-03-07") (Except.error ())
        ⟨2024, 3, 9⟩ ⟨2024, 3, 8⟩ =
      ⟨some [⟨2024, 3, 7⟩], some "2024-03-07", false⟩ ∧
    ((loadHistoryDates true none none (Except.ok ["2024-03-07"])
        ⟨2024, 3, 9⟩ ⟨2024, 3, 8⟩).hasMore = true ↔
      15 ≤ (["2024-03-07"] : List String).length) := by
  obtain ⟨h1, _, h3⟩ :=
    c6_history_failure_fallback true none none ["2024-03-07"] ⟨2024, 3, 9⟩ ⟨2024, 3, 8⟩
      [⟨2024, 3, 7⟩]
  obtain ⟨_, h2, _⟩ :=
    c6_history_failure_fallback false (some [⟨2024, 3, 7⟩]) (some "2024-03-07")
      ["2024-03-07"] ⟨2024, 3, 9⟩ ⟨2024, 3, 8⟩ [⟨2024, 3, 7⟩]
  exact ⟨h1 (by decide), h2, h3⟩

/-- C7 counterexample: cancelling the snack-type prompt (and likewise entering an
empty type) makes `addSnack` return silently — no stored change, but also **no
user-visible alert**, contradicting the claim that every validation failure
(including empty type / cancelled prompt) aborts *with an alert*. -/
theorem c7_addSnack_silent_counterexample :
    addSnack ⟨2024, 1, 2⟩ ⟨2024, 1, 2⟩ none (some "2") 0 [("main", emptyDayLog)] =
      ([("main", emptyDayLog)], false) ∧
    addSnack ⟨2024, 1, 2⟩ ⟨2024, 1, 2⟩ (some "") (some "2") 0 [("main", emptyDayLog)] =
      ([("main", emptyDayLog)], false) := by
  exact ⟨by decide, by decide⟩

/-- C7 (amended): `addMeal` and `addSnack` validate before any mutation and abort
with no stored change on every invalid input; the abort shows an alert for an
invalid weight or quantity (including a cancelled weight prompt), while a cancelled
or empty snack *type* aborts silently without an alert; every valid input appends
the new entry at the end of its own sequence (insertion order, no re-sort). -/
theorem c7_add_validation (today seld : JDate) (s : Store) (w q t : String)
    (now n : Int) (d : DayLog) :
    addMeal today seld none now s = (s, true) ∧
    (parseIntJS w = none → addMeal today seld (some w) now s = (s, true)) ∧
    (parseIntJS w = some n → n ≤ 0 → addMeal today seld (some w) now s = (s, true)) ∧
    addSnack today seld none (some q) now s = (s, false) ∧
    addSnack today seld (some "") (some q) now s = (s, false) ∧
    (t ≠ "" → addSnack today seld (some t) none now s = (s, true)) ∧
    (t ≠ "" → addSnack today seld (some t) (some "") now s = (s, true)) ∧
    (t ≠ "" → q ≠ "" → parseIntJS q = none →
      addSnack today seld (some t) (some q) now s = (s, true)) ∧
    (t ≠ "" → q ≠ "" → parseIntJS q = some n → n ≤ 0 →
      addSnack today seld (some t) (some q) now s = (s, true)) ∧
    (s.get (dateKeyFor today seld) = some d → parseIntJS w = some n → 0 < n →
      addMeal today seld (some w) now s =
        (s.set (dateKeyFor today seld)
          ⟨d.walks, d.meals ++ [⟨TimeVal.valid now, some n⟩], d.snacks⟩, false)) ∧
    (s.get (dateKeyFor today seld) = some d → t ≠ "" → q ≠ "" →
      parseIntJS q = some n → 0 < n →
      addSnack today seld (some t) (some q) now s =
        (s.set (dateKeyFor today seld)
          ⟨d.walks, d.meals, d.snacks ++ [⟨TimeVal.valid now, t, some n⟩]⟩, false)) := by
  refine ⟨rfl, ?_, ?_, rfl, rfl, ?_, ?_, ?_, ?_, ?_, ?_⟩
  · intro hp
    simp [addMeal, hp]
  · intro hp hn
    simp [addMeal, hp, hn]
  · intro ht
    simp [addSnack, ht]
  · intro ht
    simp [addSnack, ht]
  · intro ht hq hp
    simp [addSnack, ht, hq, hp]
  · intro ht hq hp hn
    simp [addSnack, ht, hq, hp, hn]
  · intro hget hp hn
    exact addMeal_valid today seld w now n s d hget hp hn
  · intro hget ht hq hp hn
    exact addSnack_valid today seld t q ht hq now n s d hget hp hn

/-- Witness for C7 at concrete inputs: weight prompts `"abc"` / `"-5"` / `"500"`,
snack type `"biscuit"`, quantity `"0"` / `"2"`, against a store whose `'main'`
document is empty, viewing today. -/
theorem c7_add_validation_witness :
    addMeal ⟨2024, 1, 2⟩ ⟨2024, 1, 2⟩ (some "abc") 7 [("main", emptyDayLog)] =
      ([("main", emptyDayLog)], true) ∧
    addSnack ⟨2024, 1, 2⟩ ⟨2024, 1, 2⟩ (some "biscuit") (some "0") 7
        [("main", emptyDayLog)] = ([("main", emptyDayLog)], true) ∧
    addMeal ⟨2024, 1, 2⟩ ⟨2024, 1, 2⟩ (some "500") 7 [("main", emptyDayLog)] =
      ([("main", ⟨[], [⟨TimeVal.valid 7, some 500⟩], []⟩)], false) ∧
    addSnack ⟨2024, 1, 2⟩ ⟨2024, 1, 2⟩ (some "biscuit") (some "2") 7
        [("main", emptyDayLog)] =
      ([("main", ⟨[], [], [⟨TimeVal.valid 7, "biscuit", some 2⟩]⟩)], false) := by
  obtain ⟨-, -, hm0, -, -, -, -, -, hs0, hm1, hs1⟩ :=
    c7_add_validation ⟨2024, 1, 2⟩ ⟨2024, 1, 2⟩ [("main", emptyDayLog)] "abc" "0"
      "biscuit" 7 0 emptyDayLog
  obtain ⟨-, ha, -, -, -, -, -, -, -, -, -⟩ :=
    c7_add_validation ⟨2024, 1, 2⟩ ⟨2024, 1, 2⟩ [("main", emptyDayLog)] "abc" "0"
      "biscuit" 7 0 emptyDayLog
  obtain ⟨-, -, -, -, -, -, -, -, -, hm2, -⟩ :=
    c7_add_validation ⟨2024, 1, 2⟩ ⟨2024, 1, 2⟩ [("main", emptyDayLog)] "500" "2"
      "biscuit" 7 500 emptyDayLog
  obtain ⟨-, -, -, -, -, -, -, -, -, -, hs2⟩ :=
    c7_add_validation ⟨2024, 1, 2⟩ ⟨2024, 1, 2⟩ [("main", emptyDayLog)] "500" "2"
      "biscuit" 7 2 emptyDayLog
  refine ⟨ha (by decide), hs0 (by decide) (by decide) (by decide) (by decide), ?_, ?_⟩
  · have := hm2 (by decide) (by decide) (by decide)
    simpa [dateKeyFor, Store.set, emptyDayLog] using this
  · have := hs2 (by decide) (by decide) (by decide) (by decide) (by decide)
    simpa [dateKeyFor, Store.set, emptyDayLog] using this

theorem editSeq_some {α : Type} (l : List α) (i : Nat) (inp : String)
    (tf : α → String → Option α) (old upd : α) (h1 : l[i]? = some old)
    (h2 : inp ≠ "") (h3 : tf old inp = some upd) :
    editSeq l i (some inp) tf = some (l.set i upd) := by
  simp [editSeq, h1, h2, h3]

theorem editSeq_invalid {α : Type} (l : List α) (i : Nat) (inp : String)
    (tf : α → String → Option α) (old : α) (h1 : l[i]? = some old)
    (h3 : tf old inp = none) :
    editSeq l i (some inp) tf = none := by
  by_cases h2 : inp = ""
  · simp [editSeq, h1, h2]
  · simp [editSeq, h1, h2, h3]

theorem editSeq_cancel {α : Type} (l : List α) (i : Nat)
    (tf : α → String → Option α) :
    editSeq l i none tf = none := by
  cases h : l[i]? <;> simp [editSeq, h]

/-- C8: `editEntry` replaces exactly the entry at the given index of the named
kind's sequence and writes that sequence back — re-sorted (through `sortByTime`)
only for walks, in place for meals and snacks; when the transform signals invalid
input (or the prompt is cancelled) the store is untouched; concretely,
`addMeal(500)` then `editMeal(0, 750)` leaves a single meal entry with weight `750`
and the original time. -/
theorem c8_editEntry_replaces (today seld : JDate) (s : Store) (d : DayLog) (i : Nat)
    (inp : String) (hget : s.get (dateKeyFor today seld) = some d) :
    (∀ (tf : WalkEntry → String → Option WalkEntry) (old upd : WalkEntry),
      d.walks[i]? = some old → inp ≠ "" → tf old inp = some upd →
      editEntryWalks today seld i (some inp) tf s =
        s.set (dateKeyFor today seld)
          ⟨sortByTime (d.walks.set i upd), d.meals, d.snacks⟩) ∧
    (∀ (tf : MealEntry → String → Option MealEntry) (old upd : MealEntry),
      d.meals[i]? = some old → inp ≠ "" → tf old inp = some upd →
      editEntryMeals today seld i (some inp) tf s =
        s.set (dateKeyFor today seld) ⟨d.walks, d.meals.set i upd, d.snacks⟩) ∧
    (∀ (tf : SnackEntry → String → Option SnackEntry) (old upd : SnackEntry),
      d.snacks[i]? = some old → inp ≠ "" → tf old inp = some upd →
      editEntrySnacks today seld i (some inp) tf s =
        s.set (dateKeyFor today seld) ⟨d.walks, d.meals, d.snacks.set i upd⟩) ∧
    (∀ (tf : MealEntry → String → Option MealEntry) (old : MealEntry),
      d.meals[i]? = some old → tf old inp = none →
      editEntryMeals today seld i (some inp) tf s = s) ∧
    (∀ (tf : WalkEntry → String → Option WalkEntry) (old : WalkEntry),
      d.walks[i]? = some old → tf old inp = none →
      editEntryWalks today seld i (some inp) tf s = s) ∧
    (∀ (tf : MealEntry → String → Option MealEntry),
      editEntryMeals today seld i none tf s = s) ∧
    editMeal ⟨2024, 1, 2⟩ ⟨2024, 1, 2⟩ 0 (some "750")
        (addMeal ⟨2024, 1, 2⟩ ⟨2024, 1, 2⟩ (some "500") 7 [("main", emptyDayLog)]).1 =
      [("main", ⟨[], [⟨TimeVal.valid 7, some 750⟩], []⟩)] ∧
    (loadForDate ⟨2024, 1, 2⟩ ⟨2024, 1, 2⟩
        (editMeal ⟨2024, 1, 2⟩ ⟨2024, 1, 2⟩ 0 (some "750")
          (addMeal ⟨2024, 1, 2⟩ ⟨2024, 1, 2⟩ (some "500") 7
            [("main", emptyDayLog)]).1)).2.meals =
      [⟨TimeVal.valid 7, some 750⟩] := by
  refine ⟨?_, ?_, ?_, ?_, ?_, ?_, by decide, by decide⟩
  · intro tf old upd h1 h2 h3
    exact editEntryWalks_of_get today seld i (some inp) tf s d hget _
      (editSeq_some d.walks i inp tf old upd h1 h2 h3)
  · intro tf old upd h1 h2 h3
    exact editEntryMeals_of_get today seld i (some inp) tf s d hget _
      (editSeq_some d.meals i inp tf old upd h1 h2 h3)
  · intro tf old upd h1 h2 h3
    exact editEntrySnacks_of_get today seld i (some inp) tf s d hget _
      (editSeq_some d.snacks i inp tf old upd h1 h2 h3)
  · intro tf old h1 h3
    exact editEntryMeals_invalid today seld i (some inp) tf s d hget
      (editSeq_invalid d.meals i inp tf old h1 h3)
  · intro tf old h1 h3
    exact editEntryWalks_invalid today seld i (some inp) tf s d hget
      (editSeq_invalid d.walks i inp tf old h1 h3)
  · intro tf
    exact editEntryMeals_invalid today seld i none tf s d hget
      (editSeq_cancel d.meals i tf)

/-- Witness for C8 at a concrete input: a day document with one walk, one meal and
one snack; editing index 0 of each kind with concrete transforms, plus an invalid
transform and a cancelled prompt. -/
theorem c8_editEntry_witness :
    (editEntryWalks ⟨2024, 1, 2⟩ ⟨2024, 1, 2⟩ 0 (some "x")
        (fun _ _ => some ⟨TimeVal.valid 9⟩)
        [("main", ⟨[⟨TimeVal.valid 5⟩], [⟨TimeVal.valid 6, some 500⟩],
          [⟨TimeVal.valid 7, "biscuit", some 2⟩]⟩)] =
      Store.set [("main", ⟨[⟨TimeVal.valid 5⟩], [⟨TimeVal.valid 6, some 500⟩],
          [⟨TimeVal.valid 7, "biscuit", some 2⟩]⟩)] (dateKeyFor ⟨2024, 1, 2⟩ ⟨2024, 1, 2⟩)
        ⟨sortByTime ([⟨TimeVal.valid 5⟩].set 0 ⟨TimeVal.valid 9⟩),
         [⟨TimeVal.valid 6, some 500⟩], [⟨TimeVal.valid 7, "biscuit", some 2⟩]⟩) ∧
    (editEntryMeals ⟨2024, 1, 2⟩ ⟨2024, 1, 2⟩ 0 (some "x")
        (fun old _ => some { old with weight := some 750 })
        [("main", ⟨[⟨TimeVal.valid 5⟩], [⟨TimeVal.valid 6, some 500⟩],
          [⟨TimeVal.valid 7, "biscuit", some 2⟩]⟩)] =
      Store.set [("main", ⟨[⟨TimeVal.valid 5⟩], [⟨TimeVal.valid 6, some 500⟩],
          [⟨TimeVal.valid 7, "biscuit", some 2⟩]⟩)] (dateKeyFor ⟨2024, 1, 2⟩ ⟨2024, 1, 2⟩)
        ⟨[⟨TimeVal.valid 5⟩], [⟨TimeVal.valid 6, some 500⟩].set 0 ⟨TimeVal.valid 6, some 750⟩,
         [⟨TimeVal.valid 7, "biscuit", some 2⟩]⟩) ∧
    (editEntryMeals ⟨2024, 1, 2⟩ ⟨2024, 1, 2⟩ 0 (some "x") (fun _ _ => none)
        [("main", ⟨[⟨TimeVal.valid 5⟩], [⟨TimeVal.valid 6, some 500⟩],
          [⟨TimeVal.valid 7, "biscuit", some 2⟩]⟩)] =
      [("main", ⟨[⟨TimeVal.valid 5⟩], [⟨TimeVal.valid 6, some 500⟩],
        [⟨TimeVal.valid 7, "biscuit", some 2⟩]⟩)]) ∧
    editMeal ⟨2024, 1, 2⟩ ⟨2024, 1, 2⟩ 0 (some "750")
        (addMeal ⟨2024, 1, 2⟩ ⟨2024, 1, 2⟩ (some "500") 7 [("main", emptyDayLog)]).1 =
      [("main", ⟨[], [⟨TimeVal.valid 7, some 750⟩], []⟩)] := by
  obtain ⟨hw, hm, -, hinv, -, -, hrt, -⟩ :=
    c8_editEntry_replaces ⟨2024, 1, 2⟩ ⟨2024, 1, 2⟩
      [("main", ⟨[⟨TimeVal.valid 5⟩], [⟨TimeVal.valid 6, some 500⟩],
        [⟨TimeVal.valid 7, "biscuit", some 2⟩]⟩)]
      ⟨[⟨TimeVal.valid 5⟩], [⟨TimeVal.valid 6, some 500⟩],
        [⟨TimeVal.valid 7, "biscuit", some 2⟩]⟩ 0 "x" (by decide)
  refine ⟨?_, ?_, ?_, hrt⟩
  · exact hw (fun _ _ => some ⟨TimeVal.valid 9⟩) ⟨TimeVal.valid 5⟩ ⟨TimeVal.valid 9⟩
      (by decide) (by decide) rfl
  · exact hm (fun old _ => some { old with weight := some 750 })
      ⟨TimeVal.valid 6, some 500⟩ ⟨TimeVal.valid 6, some 750⟩ (by decide) (by decide) rfl
  · exact hinv (fun _ _ => none) ⟨TimeVal.valid 6, some 500⟩ (by decide) rfl

/-- C9: loading a day for display never rewrites an existing stored document; every
meal entry without its numeric `weight` and every snack entry without its numeric
`quantity` is excluded from the rendered list; every walk entry is retained (the
rendered walks are a permutation of the stored ones), and a walk whose time does
not parse renders as the explicit `'Error Time'` marker instead of being dropped. -/
theorem c9_render_filters (today d : JDate) (s : Store) (doc : DayLog)
    (hget : s.get (dateKeyFor today d) = some doc) :
    (loadForDate today d s).1 = s ∧
    ((loadForDate today d s).2.walks).Perm doc.walks ∧
    (∀ w ∈ doc.walks, w ∈ (loadForDate today d s).2.walks) ∧
    (∀ m ∈ doc.meals, m.weight = none → m ∉ (loadForDate today d s).2.meals) ∧
    (∀ sn ∈ doc.snacks, sn.quantity = none → sn ∉ (loadForDate today d s).2.snacks) ∧
    formatTime TimeVal.invalid = "Error Time" := by
  have hl : loadForDate today d s =
      (s, ⟨sortByTime doc.walks, doc.meals.filter mealKept,
        doc.snacks.filter snackKept⟩) := by
    by_cases hd : d = today
    · have h2 : s.get "main" = some doc := by simpa [dateKeyFor, hd] using hget
      simp [loadForDate, hd, h2]
    · have h2 : s.get (isoKey d) = some doc := by simpa [dateKeyFor, hd] using hget
      simp [loadForDate, hd, h2]
  rw [hl]
  refine ⟨rfl, sortByTime_perm doc.walks, ?_, ?_, ?_, rfl⟩
  · intro w hw
    exact (sortByTime_perm doc.walks).mem_iff.mpr hw
  · intro m hm hw
    simp only [List.mem_filter, mealKept, hw]
    rintro ⟨-, hk⟩
    cases hk
  · intro sn hsn hq
    simp only [List.mem_filter, snackKept, hq]
    rintro ⟨-, hk⟩
    cases hk

/-- Witness for C9 at a concrete store: the `'main'` document holds a walk with an
unparsable time, a meal without a weight, a meal with weight 500, and a snack
without a quantity. -/
theorem c9_render_filters_witness :
    (loadForDate ⟨2024, 1, 2⟩ ⟨2024, 1, 2⟩
        [("main", ⟨[⟨TimeVal.invalid⟩, ⟨TimeVal.valid 5⟩],
          [⟨TimeVal.valid 6, none⟩, ⟨TimeVal.valid 6, some 500⟩],
          [⟨TimeVal.valid 7, "biscuit", none⟩]⟩)]).1 =
      [("main", ⟨[⟨TimeVal.invalid⟩, ⟨TimeVal.valid 5⟩],
        [⟨TimeVal.valid 6, none⟩, ⟨TimeVal.valid 6, some 500⟩],
        [⟨TimeVal.valid 7, "biscuit", none⟩]⟩)] ∧
    ((loadForDate ⟨2024, 1, 2⟩ ⟨2024, 1, 2⟩
        [("main", ⟨[⟨TimeVal.invalid⟩, ⟨TimeVal.valid 5⟩],
          [⟨TimeVal.valid 6, none⟩, ⟨TimeVal.valid 6, some 500⟩],
          [⟨TimeVal.valid 7, "biscuit", none⟩]⟩)]).2.walks).Perm
      [⟨TimeVal.invalid⟩, ⟨TimeVal.valid 5⟩] ∧
    (∀ w ∈ ([⟨TimeVal.invalid⟩, ⟨TimeVal.valid 5⟩] : List WalkEntry),
      w ∈ (loadForDate ⟨2024, 1, 2⟩ ⟨2024, 1, 2⟩
        [("main", ⟨[⟨TimeVal.invalid⟩, ⟨TimeVal.valid 5⟩],
          [⟨TimeVal.valid 6, none⟩, ⟨TimeVal.valid 6, some 500⟩],
          [⟨TimeVal.valid 7, "biscuit", none⟩]⟩)]).2.walks) ∧
    (∀ m ∈ ([⟨TimeVal.valid 6, none⟩, ⟨TimeVal.valid 6, some 500⟩] : List MealEntry),
      m.weight = none →
      m ∉ (loadForDate ⟨2024, 1, 2⟩ ⟨2024, 1, 2⟩
        [("main", ⟨[⟨TimeVal.invalid⟩, ⟨TimeVal.valid 5⟩],
          [⟨TimeVal.valid 6, none⟩, ⟨TimeVal.valid 6, some 500⟩],
          [⟨TimeVal.valid 7, "biscuit", none⟩]⟩)]).2.meals) ∧
    (∀ sn ∈ ([⟨TimeVal.valid 7, "biscuit", none⟩] : List SnackEntry),
      sn.quantity = none →
      sn ∉ (loadForDate ⟨2024, 1, 2⟩ ⟨2024, 1, 2⟩
        [("main", ⟨[⟨TimeVal.invalid⟩, ⟨TimeVal.valid 5⟩],
          [⟨TimeVal.valid 6, none⟩, ⟨TimeVal.valid 6, some 500⟩],
          [⟨TimeVal.valid 7, "biscuit", none⟩]⟩)]).2.snacks) ∧
    formatTime TimeVal.invalid = "Error Time" := by
  exact c9_render_filters ⟨2024, 1, 2⟩ ⟨2024, 1, 2⟩
    [("main", ⟨[⟨TimeVal.invalid⟩, ⟨TimeVal.valid 5⟩],
      [⟨TimeVal.valid 6, none⟩, ⟨TimeVal.valid 6, some 500⟩],
      [⟨TimeVal.valid 7, "biscuit", none⟩]⟩)]
    ⟨[⟨TimeVal.invalid⟩, ⟨TimeVal.valid 5⟩],
      [⟨TimeVal.valid 6, none⟩, ⟨TimeVal.valid 6, some 500⟩],
      [⟨TimeVal.valid 7, "biscuit", none⟩]⟩ (by decide)

/-- C10: every single-entry mutation persists an update touching only the sequence
field of its own kind — the stored document after the operation carries the other
two sequences over verbatim — and only `resetDay` writes all three sequences (to
empty) in one update. -/
theorem c10_frame_effects (today seld : JDate) (s : Store) (d : DayLog)
    (hget : s.get (dateKeyFor today seld) = some d) :
    (∀ now : Int, addWalk today seld now s =
      s.set (dateKeyFor today seld)
        ⟨sortByTime (d.walks ++ [⟨TimeVal.valid now⟩]), d.meals, d.snacks⟩) ∧
    (∀ (t : String) (ms : Int), t ≠ "" → addCustomWalk today seld (some t) ms s =
      s.set (dateKeyFor today seld)
        ⟨sortByTime (d.walks ++ [⟨TimeVal.valid ms⟩]), d.meals, d.snacks⟩) ∧
    (∀ (w : String) (now n : Int), parseIntJS w = some n → 0 < n →
      addMeal today seld (some w) now s =
        (s.set (dateKeyFor today seld)
          ⟨d.walks, d.meals ++ [⟨TimeVal.valid now, some n⟩], d.snacks⟩, false)) ∧
    (∀ (t w : String) (ms n : Int), t ≠ "" → parseIntJS w = some n → 0 < n →
      addCustomMeal today seld (some t) (some w) ms s =
        (s.set (dateKeyFor today seld)
          ⟨d.walks, d.meals ++ [⟨TimeVal.valid ms, some n⟩], d.snacks⟩, false)) ∧
    (∀ (t q : String) (now n : Int), t ≠ "" → q ≠ "" → parseIntJS q = some n → 0 < n →
      addSnack today seld (some t) (some q) now s =
        (s.set (dateKeyFor today seld)
          ⟨d.walks, d.meals, d.snacks ++ [⟨TimeVal.valid now, t, some n⟩]⟩, false)) ∧
    (∀ (t0 t q : String) (ms n : Int), t0 ≠ "" → t ≠ "" → q ≠ "" →
      parseIntJS q = some n → 0 < n →
      addCustomSnack today seld (some t0) (some t) (some q) ms s =
        (s.set (dateKeyFor today seld)
          ⟨d.walks, d.meals, d.snacks ++ [⟨TimeVal.valid ms, t, some n⟩]⟩, false)) ∧
    (∀ (i : Nat) (inp : Option String) (tf : WalkEntry → String → Option WalkEntry)
      (l : List WalkEntry), editSeq d.walks i inp tf = some l →
      editEntryWalks today seld i inp tf s =
        s.set (dateKeyFor today seld) ⟨sortByTime l, d.meals, d.snacks⟩) ∧
    (∀ (i : Nat) (inp : Option String) (tf : MealEntry → String → Option MealEntry)
      (l : List MealEntry), editSeq d.meals i inp tf = some l →
      editEntryMeals today seld i inp tf s =
        s.set (dateKeyFor today seld) ⟨d.walks, l, d.snacks⟩) ∧
    (∀ (i : Nat) (inp : Option String) (tf : SnackEntry → String → Option SnackEntry)
      (l : List SnackEntry), editSeq d.snacks i inp tf = some l →
      editEntrySnacks today seld i inp tf s =
        s.set (dateKeyFor today seld) ⟨d.walks, d.meals, l⟩) ∧
    (∀ i : Nat, deleteEntry today seld Kind.walks i true s =
      s.set (dateKeyFor today seld) ⟨d.walks.eraseIdx i, d.meals, d.snacks⟩) ∧
    (∀ i : Nat, deleteEntry today seld Kind.meals i true s =
      s.set (dateKeyFor today seld) ⟨d.walks, d.meals.eraseIdx i, d.snacks⟩) ∧
    (∀ i : Nat, deleteEntry today seld Kind.snacks i true s =
      s.set (dateKeyFor today seld) ⟨d.walks, d.meals, d.snacks.eraseIdx i⟩) ∧
    resetDay today seld true s = s.set (dateKeyFor today seld) ⟨[], [], []⟩ := by
  refine ⟨?_, ?_, ?_, ?_, ?_, ?_, ?_, ?_, ?_, ?_, ?_, ?_,
    resetDay_of_get today seld s d hget⟩
  · intro now
    exact addWalk_of_get today seld now s d hget
  · intro t ms ht
    exact addCustomWalk_of_get today seld t ht ms s d hget
  · intro w now n hp hn
    exact addMeal_valid today seld w now n s d hget hp hn
  · intro t w ms n ht hp hn
    exact addCustomMeal_valid today seld t w ht ms n s d hget hp hn
  · intro t q now n ht hq hp hn
    exact addSnack_valid today seld t q ht hq now n s d hget hp hn
  · intro t0 t q ms n ht0 ht hq hp hn
    exact addCustomSnack_valid today seld t0 t q ht0 ht hq ms n s d hget hp hn
  · intro i inp tf l he
    exact editEntryWalks_of_get today seld i inp tf s d hget l he
  · intro i inp tf l he
    exact editEntryMeals_of_get today seld i inp tf s d hget l he
  · intro i inp tf l he
    exact editEntrySnacks_of_get today seld i inp tf s d hget l he
  · intro i
    exact deleteEntry_walks_of_get today seld i s d hget
  · intro i
    exact deleteEntry_meals_of_get today seld i s d hget
  · intro i
    exact deleteEntry_snacks_of_get today seld i s d hget

/-- Witness for C10: all mutations run against a concrete store whose `'main'`
document holds one walk, one meal and one snack; a few representative conjuncts are
instantiated fully. -/
theorem c10_frame_effects_witness :
    addWalk ⟨2024, 1, 2⟩ ⟨2024, 1, 2⟩ 9
        [("main", ⟨[⟨TimeVal.valid 5⟩], [⟨TimeVal.valid 6, some 500⟩],
          [⟨TimeVal.valid 7, "biscuit", some 2⟩]⟩)] =
      Store.set [("main", ⟨[⟨TimeVal.valid 5⟩], [⟨TimeVal.valid 6, some 500⟩],
          [⟨TimeVal.valid 7, "biscuit", some 2⟩]⟩)] (dateKeyFor ⟨2024, 1, 2⟩ ⟨2024, 1, 2⟩)
        ⟨sortByTime ([⟨TimeVal.valid 5⟩] ++ [⟨TimeVal.valid 9⟩]),
         [⟨TimeVal.valid 6, some 500⟩], [⟨TimeVal.valid 7, "biscuit", some 2⟩]⟩ ∧
    addMeal ⟨2024, 1, 2⟩ ⟨2024, 1, 2⟩ (some "250") 9
        [("main", ⟨[⟨TimeVal.valid 5⟩], [⟨TimeVal.valid 6, some 500⟩],
          [⟨TimeVal.valid 7, "biscuit", some 2⟩]⟩)] =
      (Store.set [("main", ⟨[⟨TimeVal.valid 5⟩], [⟨TimeVal.valid 6, some 500⟩],
          [⟨TimeVal.valid 7, "biscuit", some 2⟩]⟩)] (dateKeyFor ⟨2024, 1, 2⟩ ⟨2024, 1, 2⟩)
        ⟨[⟨TimeVal.valid 5⟩],
         [⟨TimeVal.valid 6, some 500⟩] ++ [⟨TimeVal.valid 9, some 250⟩],
         [⟨TimeVal.valid 7, "biscuit", some 2⟩]⟩, false) ∧
    deleteEntry ⟨2024, 1, 2⟩ ⟨2024, 1, 2⟩ Kind.snacks 0 true
        [("main", ⟨[⟨TimeVal.valid 5⟩], [⟨TimeVal.valid 6, some 500⟩],
          [⟨TimeVal.valid 7, "biscuit", some 2⟩]⟩)] =
      Store.set [("main", ⟨[⟨TimeVal.valid 5⟩], [⟨TimeVal.valid 6, some 500⟩],
          [⟨TimeVal.valid 7, "biscuit", some 2⟩]⟩)] (dateKeyFor ⟨2024, 1, 2⟩ ⟨2024, 1, 2⟩)
        ⟨[⟨TimeVal.valid 5⟩], [⟨TimeVal.valid 6, some 500⟩],
         ([⟨TimeVal.valid 7, "biscuit", some 2⟩] : List SnackEntry).eraseIdx 0⟩ ∧
    resetDay ⟨2024, 1, 2⟩ ⟨2024, 1, 2⟩ true
        [("main", ⟨[⟨TimeVal.valid 5⟩], [⟨TimeVal.valid 6, some 500⟩],
          [⟨TimeVal.valid 7, "biscuit", some 2⟩]⟩)] =
      Store.set [("main", ⟨[⟨TimeVal.valid 5⟩], [⟨TimeVal.valid 6, some 500⟩],
          [⟨TimeVal.valid 7, "biscuit", some 2⟩]⟩)] (dateKeyFor ⟨2024, 1, 2⟩ ⟨2024, 1, 2⟩)
        ⟨[], [], []⟩ := by
  obtain ⟨hw, -, hm, -, -, -, -, -, -, -, -, hds, hr⟩ :=
    c10_frame_effects ⟨2024, 1, 2⟩ ⟨2024, 1, 2⟩
      [("main", ⟨[⟨TimeVal.valid 5⟩], [⟨TimeVal.valid 6, some 500⟩],
        [⟨TimeVal.valid 7, "biscuit", some 2⟩]⟩)]
      ⟨[⟨TimeVal.valid 5⟩], [⟨TimeVal.valid 6, some 500⟩],
        [⟨TimeVal.valid 7, "biscuit", some 2⟩]⟩ (by decide)
  exact ⟨hw 9, hm "250" 9 250 (by decide) (by decide), hds 0, hr⟩
